import Mathlib

/-!
# Verification of the IMDb OLAP ETL pipeline (`src/etl/load_data.py`)

A shallow embedding of the ETL loaders of `IMDBDataLoader` as Lean functions,
together with theorems settling the spec's claims about them.

Conventions of the embedding:
* A pandas NaN / SQL NULL value is `Option.none`; a present value is `some v`.
  The extractor (`read_tsv`) maps the reserved token `\N` and empty fields to
  NaN before the loaders run.
* A Python dict fetched back from the database (e.g. `person_map`,
  `genre_map`, `title_map`) is a function `String → Option κ`; a Python set of
  valid keys (e.g. `valid_tconsts`) is a predicate `String → Bool`.
* Surrogate keys assigned by the database's auto-increment on a freshly
  truncated table are modelled positionally: the row inserted at index `i`
  receives key `i + 1`.
* Python's `str.split`, `str.strip`, string slicing and `sorted` are modelled
  at the character-list level so that every definition evaluates inside Lean.
* Each loader returns the list of row tuples it appends (`bridge_data`,
  `title_data`, ...) in loop order, together with its `skip_stats` counters.
-/

namespace IMDbETL

/-! ## String helpers (models of the Python string primitives used) -/

/-- `s.split(',')` worker: accumulate the current token (reversed) and cut at
every comma. -/
def splitOnCommaAux : List Char → List Char → List (List Char)
  | [], acc => [acc.reverse]
  | c :: cs, acc =>
      if c = ',' then acc.reverse :: splitOnCommaAux cs []
      else splitOnCommaAux cs (c :: acc)

/-- Python `s.split(',')`. -/
def splitOnComma (s : String) : List String :=
  (splitOnCommaAux s.data []).map String.mk

/-- Python `s.strip()`: drop whitespace from both ends. -/
def stripStr (s : String) : String :=
  String.mk (((s.data.dropWhile Char.isWhitespace).reverse.dropWhile
    Char.isWhitespace).reverse)

/-- Python slicing `s[:n]`: the first `n` characters. -/
def takeStr (n : Nat) (s : String) : String := String.mk (s.data.take n)

/-- Code-point lexicographic strict order on character lists (the order
Python's `sorted` uses on strings). -/
def charListLt : List Char → List Char → Bool
  | [], [] => false
  | [], _ :: _ => true
  | _ :: _, [] => false
  | a :: as, b :: bs =>
      if a.val < b.val then true
      else if b.val < a.val then false
      else charListLt as bs

/-- `s ≤ t` in code-point order. -/
def strLeB (s t : String) : Bool := !(charListLt t.data s.data)

/-- Insertion into a `strLeB`-sorted list. -/
def insertSorted (s : String) : List String → List String
  | [] => [s]
  | t :: ts => if strLeB s t then s :: t :: ts else t :: insertSorted s ts

/-- Insertion sort on strings, modelling Python's `sorted`. -/
def sortStrings (l : List String) : List String := l.foldr insertSorted []

/-! ## Time dimension (`load_dim_time`, load_data.py lines 140-147)

`years = list(range(1874, 2041))`;
`time_data = [(year, (year // 10) * 10, (year // 100) + 1) for year in years]`.
-/

/-- `range(1874, 2041)`: the configured year range 1874..2040. -/
def dimTimeYears : List Nat := List.range' 1874 167

/-- The `(year, decade, century)` tuples inserted into `dim_time`. -/
def dimTimeRows : List (Nat × Nat × Nat) :=
  dimTimeYears.map (fun year => (year, (year / 10) * 10, (year / 100) + 1))

/-- The `time_map` dict `{year: time_key}` fetched back from `dim_time`:
the row for year `1874 + i` was inserted at index `i` and carries
auto-increment key `i + 1`.  Years are looked up as integers because
`startYear` is an integer-coerced (possibly absent) source column. -/
def time_map (y : Int) : Option Nat :=
  if 1874 ≤ y ∧ y ≤ 2040 then some ((y - 1874).toNat + 1) else none

/-- The era bucket with index `e` (the code's `century` column) covers the
years `[100*(e-1), 100*e)`. -/
def centuryBucket (e y : Nat) : Prop := 100 * (e - 1) ≤ y ∧ y < 100 * e

/-! ## Genre dimension (`load_dim_genre`, lines 164-183) -/

/-- One record of `title.basics` after extraction. -/
structure BasicsRow where
  tconst : Option String
  titleType : Option String
  primaryTitle : Option String
  originalTitle : Option String
  isAdult : Option Int
  startYear : Option Int
  endYear : Option Int
  runtimeMinutes : Option Int
  genres : Option String
  deriving Repr, DecidableEq

/-- `[g.strip() for g in genres_str.split(',')]`. -/
def splitGenres (s : String) : List String :=
  (splitOnComma s).map stripStr

/-- `load_dim_genre`: explode every non-null, non-`\N` `genres` field on a
comma, strip tokens, collect into a set, and insert the sorted set. -/
def load_dim_genre (rows : List BasicsRow) : List String :=
  let allGenres :=
    (rows.filterMap (fun r =>
      match r.genres with
      | some g => if g ≠ "\\N" then some (splitGenres g) else none
      | none => none)).flatten
  sortStrings allGenres.dedup

/-- Index of the first element satisfying `p` (the position a row was
inserted at, hence its auto-increment key minus one). -/
def firstIdx (p : α → Bool) : List α → Option Nat
  | [] => none
  | a :: as => if p a then some 0 else (firstIdx p as).map (· + 1)

/-- The `genre_map` dict `{genre_name: genre_key}` fetched back from
`dim_genre` after `load_dim_genre` inserted `genres` in order. -/
def genreKeyMap (genres : List String) : String → Option Nat :=
  fun g => (firstIdx (fun x => x == g) genres).map (· + 1)

/-! ## Title-type dimension (`load_dim_title_type`, lines 149-162)

`unique_types = df_basics['titleType'].dropna().unique()` keeps the first
occurrence of each value in row order, which is `List.dedup`'s behaviour. -/

/-- The `titleType` values inserted into `dim_title_type`, in order. -/
def load_dim_title_type (rows : List BasicsRow) : List String :=
  (rows.filterMap (fun r => r.titleType)).dedup

/-- The `type_map` dict `{titleType: type_key}` fetched back from
`dim_title_type`. -/
def typeKeyMap (types : List String) : String → Option Nat :=
  fun ty => (firstIdx (fun x => x == ty) types).map (· + 1)

/-! ## Person dimension (`load_dim_person`, lines 185-213) -/

/-- One record of `name.basics` after extraction. -/
structure NameRow where
  nconst : String
  primaryName : Option String
  birthYear : Option Int
  deathYear : Option Int
  primaryProfession : Option String
  knownForTitles : Option String
  deriving Repr, DecidableEq

/-- One tuple appended to `person_data`. -/
structure PersonDimRow where
  nconst : String
  primaryName : Option String
  birthYear : Option Int
  deathYear : Option Int
  primaryProfession : Option String
  knownForTitles : Option String
  deriving Repr, DecidableEq

/-- `load_dim_person`: a straight projection of `name.basics` with string
truncation; no row is dropped and no placeholder row is added. -/
def load_dim_person (rows : List NameRow) : List PersonDimRow :=
  rows.map (fun r =>
    ⟨r.nconst, r.primaryName.map (takeStr 255), r.birthYear, r.deathYear,
     r.primaryProfession.map (takeStr 255), r.knownForTitles⟩)

/-- The `person_map` dict `{nconst: person_key}` fetched back from
`dim_person`. -/
def personKeyMap (persons : List PersonDimRow) : String → Option Nat :=
  fun n => (firstIdx (fun p => p.nconst == n) persons).map (· + 1)

/-! ## Title dimension (`load_dim_title`, lines 215-269) -/

/-- One tuple appended to `title_data`. -/
structure TitleDimRow where
  tconst : String
  primaryTitle : Option String
  originalTitle : Option String
  isAdult : Int
  startYear : Option Int
  endYear : Option Int
  runtimeMinutes : Option Int
  type_key : Option Nat
  deriving Repr, DecidableEq

/-- Skip counters of `load_dim_title`. -/
structure TitleStats where
  missing_tconst : Nat
  unknown_titleType : Nat
  deriving Repr, DecidableEq

/-- `type_key = type_map.get(row['titleType'])` (a NaN tag looks up to
`None`). -/
def titleTypeKey (tm : String → Option Nat) (r : BasicsRow) : Option Nat :=
  match r.titleType with
  | some ty => tm ty
  | none => none

/-- The tuple appended for a title row whose identifier `t` passed the
null check: truncation to 255 characters, `isAdult` NaN filled with 0,
`type_key` possibly NULL. -/
def projectTitle (tm : String → Option Nat) (t : String) (r : BasicsRow) :
    TitleDimRow :=
  ⟨t, r.primaryTitle.map (takeStr 255), r.originalTitle.map (takeStr 255),
   r.isAdult.getD 0, r.startYear, r.endYear, r.runtimeMinutes,
   titleTypeKey tm r⟩

/-- `load_dim_title` body: drop rows with a NaN or `\N` identifier
(counted `missing_tconst`); count a non-NaN tag that fails to map
(`unknown_titleType`) but still append the row with a NULL `type_key`. -/
def load_dim_title (tm : String → Option Nat) :
    List BasicsRow → List TitleDimRow × TitleStats
  | [] => ([], ⟨0, 0⟩)
  | r :: rs =>
      let prev := load_dim_title tm rs
      match r.tconst with
      | none =>
          (prev.1, { prev.2 with missing_tconst := prev.2.missing_tconst + 1 })
      | some t =>
          if t = "\\N" then
            (prev.1,
             { prev.2 with missing_tconst := prev.2.missing_tconst + 1 })
          else
            let unk : Nat :=
              match r.titleType with
              | some ty => if tm ty = none then 1 else 0
              | none => 0
            (projectTitle tm t r :: prev.1,
             { prev.2 with
                 unknown_titleType := prev.2.unknown_titleType + unk })

/-- The set `valid_tconsts` as fetched back from the persisted `dim_title`. -/
def titleTconsts (titles : List TitleDimRow) : String → Bool :=
  fun t => titles.any (fun r => r.tconst == t)

/-! ## Episode dimension (`load_dim_episode`, lines 271-304) -/

/-- One record of `title.episode` after extraction. -/
structure EpisodeRow where
  tconst : Option String
  parentTconst : Option String
  seasonNumber : Option Int
  episodeNumber : Option Int
  deriving Repr, DecidableEq

/-- One tuple appended to `episode_data`. -/
structure EpisodeDimRow where
  tconst : String
  parentTconst : Option String
  seasonNumber : Option Int
  episodeNumber : Option Int
  deriving Repr, DecidableEq

/-- Skip counters of `load_dim_episode`. -/
structure EpisodeStats where
  tconst_not_found : Nat
  parent_tconst_not_found : Nat
  deriving Repr, DecidableEq

/-- `load_dim_episode` body: an episode whose own identifier is NaN or not
in `valid_tconsts` is skipped and counted; a truthy parent identifier that
is not in `valid_tconsts` is counted and stored as NULL, the row itself is
kept. -/
def load_dim_episode (vt : String → Bool) :
    List EpisodeRow → List EpisodeDimRow × EpisodeStats
  | [] => ([], ⟨0, 0⟩)
  | r :: rs =>
      let prev := load_dim_episode vt rs
      match r.tconst with
      | none =>
          (prev.1,
           { prev.2 with tconst_not_found := prev.2.tconst_not_found + 1 })
      | some t =>
          if vt t then
            let po : Option String × Nat :=
              match r.parentTconst with
              | some p => if p ≠ "" ∧ ¬ vt p then (none, 1) else (some p, 0)
              | none => (none, 0)
            (⟨t, po.1, r.seasonNumber, r.episodeNumber⟩ :: prev.1,
             { prev.2 with parent_tconst_not_found :=
                 prev.2.parent_tconst_not_found + po.2 })
          else
            (prev.1,
             { prev.2 with tconst_not_found := prev.2.tconst_not_found + 1 })

/-! ## Title–genre bridge (`load_bridge_title_genre`, lines 349-385) -/

/-- Skip counters of `load_bridge_title_genre`. -/
structure GenreBridgeStats where
  tconst_not_found : Nat
  unknown_genre : Nat
  no_genres : Nat
  deriving Repr, DecidableEq

/-- The `(tconst, genre_key)` pairs emitted for one exploded `genres`
field. -/
def genrePairs (gm : String → Option Nat) (t : String) (toks : List String) :
    List (String × Nat) :=
  toks.filterMap (fun gname => (gm gname).map (fun k => (t, k)))

/-- `load_bridge_title_genre` body: per title row, require the identifier in
`valid_tconsts`; explode the non-null, non-`\N` `genres` field; emit
`(tconst, genre_key)` for each token found in `genre_map`, count the
others. -/
def load_bridge_title_genre (gm : String → Option Nat) (vt : String → Bool) :
    List BasicsRow → List (String × Nat) × GenreBridgeStats
  | [] => ([], ⟨0, 0, 0⟩)
  | r :: rs =>
      let prev := load_bridge_title_genre gm vt rs
      match r.tconst with
      | none =>
          (prev.1,
           { prev.2 with tconst_not_found := prev.2.tconst_not_found + 1 })
      | some t =>
          if vt t then
            match r.genres with
            | some g =>
                if g = "\\N" then
                  (prev.1, { prev.2 with no_genres := prev.2.no_genres + 1 })
                else
                  let toks := splitGenres g
                  let unk :=
                    (toks.filter (fun gname => gm gname = none)).length
                  (genrePairs gm t toks ++ prev.1,
                   { prev.2 with
                       unknown_genre := prev.2.unknown_genre + unk })
            | none =>
                (prev.1, { prev.2 with no_genres := prev.2.no_genres + 1 })
          else
            (prev.1,
             { prev.2 with tconst_not_found := prev.2.tconst_not_found + 1 })

/-! ## Title–person bridges (lines 387-506)

`load_bridge_title_director` and `load_bridge_title_writer` read
`title.crew`; `load_bridge_title_principal` reads `title.principals`. Each
validates the title against `valid_tconsts` and the person against
`person_map`; `if person_key:` is Python truthiness, so a missing key (and a
hypothetical key 0) is counted `unknown_person` and the pair is skipped — no
placeholder person row is ever written. -/

/-- One record of `title.crew` after extraction. -/
structure CrewRow where
  tconst : Option String
  directors : Option String
  writers : Option String
  deriving Repr, DecidableEq

/-- Skip counters of `load_bridge_title_director`. -/
structure DirectorBridgeStats where
  tconst_not_found : Nat
  unknown_person : Nat
  no_directors : Nat
  deriving Repr, DecidableEq

/-- Python truthiness of `person_map.get(nconst)`. -/
def truthyKey : Option Nat → Bool
  | some k => k != 0
  | none => false

/-- Explode a delimited person field and emit `(tconst, person_key)` for
each truthy lookup. -/
def personPairs (pm : String → Option Nat) (t : String) (toks : List String) :
    List (String × Nat) :=
  toks.filterMap (fun n => if truthyKey (pm n) then (pm n).map (fun k => (t, k)) else none)

/-- `load_bridge_title_director` body. -/
def load_bridge_title_director (pm : String → Option Nat) (vt : String → Bool) :
    List CrewRow → List (String × Nat) × DirectorBridgeStats
  | [] => ([], ⟨0, 0, 0⟩)
  | r :: rs =>
      let prev := load_bridge_title_director pm vt rs
      match r.tconst with
      | none =>
          (prev.1,
           { prev.2 with tconst_not_found := prev.2.tconst_not_found + 1 })
      | some t =>
          if vt t then
            match r.directors with
            | some ds =>
                if ds = "\\N" then
                  (prev.1,
                   { prev.2 with no_directors := prev.2.no_directors + 1 })
                else
                  let toks := (splitOnComma ds).map stripStr
                  let unk :=
                    (toks.filter (fun n => ! truthyKey (pm n))).length
                  (personPairs pm t toks ++ prev.1,
                   { prev.2 with
                       unknown_person := prev.2.unknown_person + unk })
            | none =>
                (prev.1,
                 { prev.2 with no_directors := prev.2.no_directors + 1 })
          else
            (prev.1,
             { prev.2 with tconst_not_found := prev.2.tconst_not_found + 1 })

/-- Skip counters of `load_bridge_title_writer`. -/
structure WriterBridgeStats where
  tconst_not_found : Nat
  unknown_person : Nat
  no_writers : Nat
  deriving Repr, DecidableEq

/-- `load_bridge_title_writer` body (identical to the director bridge over
the `writers` column). -/
def load_bridge_title_writer (pm : String → Option Nat) (vt : String → Bool) :
    List CrewRow → List (String × Nat) × WriterBridgeStats
  | [] => ([], ⟨0, 0, 0⟩)
  | r :: rs =>
      let prev := load_bridge_title_writer pm vt rs
      match r.tconst with
      | none =>
          (prev.1,
           { prev.2 with tconst_not_found := prev.2.tconst_not_found + 1 })
      | some t =>
          if vt t then
            match r.writers with
            | some ws =>
                if ws = "\\N" then
                  (prev.1,
                   { prev.2 with no_writers := prev.2.no_writers + 1 })
                else
                  let toks := (splitOnComma ws).map stripStr
                  let unk :=
                    (toks.filter (fun n => ! truthyKey (pm n))).length
                  (personPairs pm t toks ++ prev.1,
                   { prev.2 with
                       unknown_person := prev.2.unknown_person + unk })
            | none =>
                (prev.1,
                 { prev.2 with no_writers := prev.2.no_writers + 1 })
          else
            (prev.1,
             { prev.2 with tconst_not_found := prev.2.tconst_not_found + 1 })

/-- One record of `title.principals` after extraction. -/
structure PrincipalRow where
  tconst : Option String
  nconst : Option String
  category : Option String
  job : Option String
  characters : Option String
  deriving Repr, DecidableEq

/-- One tuple appended to the principal `bridge_data`. -/
structure PrincipalBridgeRow where
  tconst : String
  person_key : Nat
  category : Option String
  job : Option String
  characters : Option String
  deriving Repr, DecidableEq

/-- Skip counters of `load_bridge_title_principal`. -/
structure PrincipalBridgeStats where
  tconst_not_found : Nat
  unknown_person : Nat
  deriving Repr, DecidableEq

/-- `load_bridge_title_principal` body. -/
def load_bridge_title_principal (pm : String → Option Nat) (vt : String → Bool) :
    List PrincipalRow → List PrincipalBridgeRow × PrincipalBridgeStats
  | [] => ([], ⟨0, 0⟩)
  | r :: rs =>
      let prev := load_bridge_title_principal pm vt rs
      match r.tconst with
      | none =>
          (prev.1,
           { prev.2 with tconst_not_found := prev.2.tconst_not_found + 1 })
      | some t =>
          if vt t then
            let pk : Option Nat :=
              match r.nconst with
              | some n => pm n
              | none => none
            if truthyKey pk then
              (⟨t, pk.getD 0, r.category.map (takeStr 100),
                r.job.map (takeStr 255), r.characters⟩ :: prev.1, prev.2)
            else
              (prev.1,
               { prev.2 with unknown_person := prev.2.unknown_person + 1 })
          else
            (prev.1,
             { prev.2 with tconst_not_found := prev.2.tconst_not_found + 1 })

/-! ## Fact table (`load_fact_title_ratings`, lines 512-567) -/

/-- One record of `title.ratings` after extraction.  `averageRating` is kept
as an exact rational: `float()` on an already-parsed numeric column is the
identity for the purposes of the preservation claims. -/
structure RatingRow where
  tconst : String
  averageRating : Option Rat
  numVotes : Option Int
  deriving Repr, DecidableEq

/-- One tuple appended to `fact_data`. -/
structure FactRow where
  tconst : String
  averageRating : Option Rat
  numVotes : Option Int
  title_key : Nat
  time_key : Option Nat
  type_key : Option Nat
  deriving Repr, DecidableEq

/-- Skip counters of `load_fact_title_ratings`. -/
structure FactStats where
  title_not_found : Nat
  year_not_in_dim_time : Nat
  deriving Repr, DecidableEq

/-- `load_fact_title_ratings` body: a rating whose title is absent from
`title_map` is dropped and counted; a present but unmappable start year is
counted and the row is inserted with a NULL `time_key`. -/
def load_fact_title_ratings
    (titleMap : String → Option (Nat × Option Int × Option Nat))
    (tmap : Int → Option Nat) :
    List RatingRow → List FactRow × FactStats
  | [] => ([], ⟨0, 0⟩)
  | r :: rs =>
      let prev := load_fact_title_ratings titleMap tmap rs
      match titleMap r.tconst with
      | none =>
          (prev.1,
           { prev.2 with title_not_found := prev.2.title_not_found + 1 })
      | some (tk, sy, tyk) =>
          let tky : Option Nat × Nat :=
            match sy with
            | some y =>
                match tmap y with
                | some k => (some k, 0)
                | none => (none, 1)
            | none => (none, 0)
          (⟨r.tconst, r.averageRating, r.numVotes, tk, tky.1, tyk⟩ :: prev.1,
           { prev.2 with year_not_in_dim_time :=
               prev.2.year_not_in_dim_time + tky.2 })

/-! ## Bulk loader (`bulk_insert`, lines 92-117)

`bulk_insert` slices `data` into `batch_size` slices, runs
`executemany` + `commit` per slice, and catches any `Error`: the pending
transaction is rolled back (already-committed slices stay), an error line
naming the table is printed, and the function returns normally so the run
proceeds to the next stage.  The database failure is modelled by an oracle
`failAt` giving the index of the batch whose `executemany` raises. -/

/-- Outcome of one `bulk_insert` call: the rows durably committed and
whether the error branch ran. -/
structure InsertOutcome (α : Type) where
  committed : List α
  errored : Bool
  deriving Repr, DecidableEq

/-- `data[i:i+batch_size]` slicing, fuelled by the list length. -/
def toBatchesAux (bs : Nat) : Nat → List α → List (List α)
  | _, [] => []
  | 0, _ :: _ => []
  | fuel + 1, l => l.take bs :: toBatchesAux bs fuel (l.drop bs)

/-- The batch slices `bulk_insert` iterates over. -/
def toBatches (bs : Nat) (l : List α) : List (List α) :=
  toBatchesAux bs l.length l

/-- The batch loop: commit each batch in turn; when batch `i` raises, the
pending batch is rolled back and the loop exits through the handler. -/
def runBatches (failAt : Option Nat) : Nat → List (List α) → InsertOutcome α
  | _, [] => ⟨[], false⟩
  | i, b :: bs =>
      if failAt = some i then ⟨[], true⟩
      else
        let o := runBatches failAt (i + 1) bs
        ⟨b ++ o.committed, o.errored⟩

/-- `bulk_insert`: batch, insert, commit incrementally, catch a batch-level
error. -/
def bulk_insert (failAt : Option Nat) (batchSize : Nat) (data : List α) :
    InsertOutcome α :=
  runBatches failAt 0 (toBatches batchSize data)

/-- The orchestrator's sequence of `bulk_insert` calls: every table is
processed whatever the outcome of the earlier ones, since `bulk_insert`
catches its own errors. -/
def runTables (batchSize : Nat) (tables : List (Option Nat × List α)) :
    List (InsertOutcome α) :=
  tables.map (fun p => bulk_insert p.1 batchSize p.2)

/-! ## Helper predicates naming loader branch conditions

Used to state skip-counter characterizations and candidate conservation. -/

/-- The episode record's own identifier is non-NaN and in `valid_tconsts`. -/
def episodeKept (vt : String → Bool) (r : EpisodeRow) : Bool :=
  match r.tconst with
  | some t => vt t
  | none => false

/-- The episode record carries a truthy parent identifier that is not a
loaded title. -/
def orphanParent (vt : String → Bool) (r : EpisodeRow) : Bool :=
  match r.parentTconst with
  | some p => (p != "") && ! vt p
  | none => false

/-- The parent reference actually stored for a kept episode record. -/
def episodeParentOut (vt : String → Bool) (r : EpisodeRow) : Option String :=
  match r.parentTconst with
  | some p => if p ≠ "" ∧ ¬ vt p then none else some p
  | none => none

/-- The title record has a usable natural identifier (non-NaN, not the
literal `\N`). -/
def keepTitle (r : BasicsRow) : Bool :=
  match r.tconst with
  | some t => t != "\\N"
  | none => false

/-- The record carries a non-NaN content-type tag that `type_map` does not
know. -/
def unknownTitleType (tm : String → Option Nat) (r : BasicsRow) : Bool :=
  match r.titleType with
  | some ty => (tm ty).isNone
  | none => false

/-- The candidate genre tokens a `title.basics` record contributes once its
title passed validation. -/
def genreCandidates (vt : String → Bool) (r : BasicsRow) : List String :=
  match r.tconst with
  | some t =>
      if vt t then
        match r.genres with
        | some g => if g = "\\N" then [] else splitGenres g
        | none => []
      else []
  | none => []

/-- The candidate person tokens a `title.crew` record contributes to the
director bridge once its title passed validation. -/
def directorCandidates (vt : String → Bool) (r : CrewRow) : List String :=
  match r.tconst with
  | some t =>
      if vt t then
        match r.directors with
        | some ds =>
            if ds = "\\N" then [] else (splitOnComma ds).map stripStr
        | none => []
      else []
  | none => []

/-! ## Concrete fixtures for the scenario and counterexample theorems -/

/-- The three-title end-to-end scenario of the spec. -/
def scenarioRows : List BasicsRow :=
  [⟨some "tt1", some "movie", none, none, none, some 1999, none, none,
    some "Action,Drama"⟩,
   ⟨some "tt2", some "movie", none, none, none, some 2005, none, none,
    some "Drama"⟩,
   ⟨some "tt3", some "movie", none, none, none, none, none, none, none⟩]

/-- A single title whose delimited genre field repeats one token. -/
def dupGenreRows : List BasicsRow :=
  [⟨some "tt1", some "movie", none, none, none, none, none, none,
    some "Drama,Drama"⟩]

/-- A primary person roster holding only `nm1`. -/
def soloRoster : List NameRow :=
  [⟨"nm1", some "Alice", none, none, none, none⟩]

/-- A crew record whose director `nm2` is absent from the roster. -/
def unknownDirectorCrew : List CrewRow := [⟨some "tt1", some "nm2", none⟩]

/-- A crew record and a principal-cast record that emit the same
(title, person) association. -/
def dualSourceCrew : List CrewRow := [⟨some "tt1", some "nm1", none⟩]

/-- The principal-cast record matching `dualSourceCrew`'s association. -/
def dualSourcePrincipals : List PrincipalRow :=
  [⟨some "tt1", some "nm1", some "director", none, none⟩]

end IMDbETL

namespace IMDbETL

/-! ## Theorems -/

/-- C3: the `dim_time` rows are a pure function of the configured year range
1874..2040 (no source file is read); for every year in the range the decade
column is `floor(year/10)*10`, and the era (`century`) column is the index
of the unique bucket of a fixed, non-overlapping, exhaustive partition of
the year axis into hundred-year intervals that contains the year. -/
theorem dim_time_pure_partition :
    dimTimeRows.map (fun r => r.1) = List.range' 1874 167 ∧
    (∀ r ∈ dimTimeRows, r.2.1 = (r.1 / 10) * 10) ∧
    (∀ r ∈ dimTimeRows,
      centuryBucket r.2.2 r.1 ∧ ∀ e, centuryBucket e r.1 → e = r.2.2) ∧
    (∀ y : Nat, ∃ e, centuryBucket e y ∧ ∀ e', centuryBucket e' y → e' = e) := by
  refine ⟨?_, ?_, ?_, ?_⟩
  · simp [dimTimeRows, dimTimeYears, Function.comp_def]
  · intro r hr
    rcases List.mem_map.mp hr with ⟨y, _, rfl⟩
    rfl
  · intro r hr
    rcases List.mem_map.mp hr with ⟨y, _, rfl⟩
    refine ⟨⟨?_, ?_⟩, ?_⟩
    · show 100 * ((y / 100 + 1) - 1) ≤ y
      omega
    · show y < 100 * (y / 100 + 1)
      omega
    · intro e he
      rcases he with ⟨h1, h2⟩
      show e = y / 100 + 1
      omega
  · intro y
    refine ⟨y / 100 + 1, ⟨?_, ?_⟩, ?_⟩
    · omega
    · omega
    · intro e' he'
      rcases he' with ⟨h1, h2⟩
      omega

/-- C7: on the three-title scenario the Genre dimension is exactly
`[Action, Drama]`, the Title dimension holds all three titles (tt3 with an
absent start year), and the title–genre bridge holds exactly the pairs
(tt1, Action), (tt1, Drama), (tt2, Drama) — with Action and Drama carrying
genre keys 1 and 2 from the sorted insert order. -/
theorem scenario_genre_title_bridge :
    load_dim_genre scenarioRows = ["Action", "Drama"] ∧
    (load_dim_title (typeKeyMap (load_dim_title_type scenarioRows))
        scenarioRows).1.map (fun r => (r.tconst, r.startYear)) =
      [("tt1", some 1999), ("tt2", some 2005), ("tt3", none)] ∧
    (load_bridge_title_genre (genreKeyMap (load_dim_genre scenarioRows))
        (titleTconsts
          (load_dim_title (typeKeyMap (load_dim_title_type scenarioRows))
            scenarioRows).1)
        scenarioRows).1 =
      [("tt1", 1), ("tt1", 2), ("tt2", 2)] := by
  refine ⟨by decide, by decide, by decide⟩

/-- C4: a rating whose title resolves but whose start year is absent, or
falls outside the year range 1874..2040 held by `dim_time`, still yields a
fact row — with a NULL `time_key` and the rating and vote-count measures
unchanged. -/
theorem fact_unmappable_year_inserted
    (titleMap : String → Option (Nat × Option Int × Option Nat))
    (rs : List RatingRow) (r : RatingRow) (tk : Nat) (sy : Option Int)
    (tyk : Option Nat)
    (hmem : r ∈ rs)
    (hres : titleMap r.tconst = some (tk, sy, tyk))
    (hout : sy = none ∨ ∃ y, sy = some y ∧ ¬(1874 ≤ y ∧ y ≤ 2040)) :
    (⟨r.tconst, r.averageRating, r.numVotes, tk, none, tyk⟩ : FactRow) ∈
      (load_fact_title_ratings titleMap time_map rs).1 := by
  induction rs with
  | nil => cases hmem
  | cons a as ih =>
      rcases List.mem_cons.mp hmem with h | h
      · subst h
        have hnone : ∀ y : Int, sy = some y → time_map y = none := by
          rcases hout with h0 | ⟨y, hy, hr⟩
          · intro y hy'; rw [h0] at hy'; cases hy'
          · intro y' hy'; rw [hy] at hy'
            cases hy'
            simp only [time_map, ite_eq_right_iff]
            intro hc
            exact absurd hc hr
        simp only [load_fact_title_ratings, hres]
        cases hsy : sy with
        | none => simp
        | some y => simp [hnone y hsy]
      · have hm := ih h
        simp only [load_fact_title_ratings]
        cases hta : titleMap a.tconst with
        | none => simpa using hm
        | some v =>
            obtain ⟨tk', sy', tyk'⟩ := v
            simp only []
            exact List.mem_cons_of_mem _ hm

/-- Witness for C4 at the spec's example: a title with `startYear=1850` and
a valid rating still appears in the fact output with an absent time
reference. -/
theorem fact_unmappable_year_inserted_witness :
    (⟨"tt1", some 8, some 100, 1, none, none⟩ : FactRow) ∈
      (load_fact_title_ratings
        (fun t => if t = "tt1" then some (1, some 1850, none) else none)
        time_map
        [⟨"tt1", some 8, some 100⟩]).1 :=
  fact_unmappable_year_inserted
    (fun t => if t = "tt1" then some (1, some 1850, none) else none)
    [⟨"tt1", some 8, some 100⟩] ⟨"tt1", some 8, some 100⟩ 1 (some 1850) none
    (by decide) (by decide) (Or.inr ⟨1850, rfl, by decide⟩)

/-- C5: every emitted fact row's title reference resolves in `title_map`
(its `title_key` is the mapped key), and ratings whose title does not
resolve are counted under `title_not_found` — one count per dropped
record. -/
theorem fact_unresolved_title_dropped
    (titleMap : String → Option (Nat × Option Int × Option Nat))
    (tmap : Int → Option Nat) (rs : List RatingRow) :
    (∀ f ∈ (load_fact_title_ratings titleMap tmap rs).1,
        ∃ sy tyk, titleMap f.tconst = some (f.title_key, sy, tyk)) ∧
    (load_fact_title_ratings titleMap tmap rs).2.title_not_found =
      (rs.filter (fun x => (titleMap x.tconst).isNone)).length := by
  induction rs with
  | nil => exact ⟨by simp [load_fact_title_ratings], rfl⟩
  | cons a as ih =>
      obtain ⟨ih1, ih2⟩ := ih
      cases hta : titleMap a.tconst with
      | none =>
          refine ⟨?_, ?_⟩
          · intro f hf
            simp only [load_fact_title_ratings, hta] at hf
            exact ih1 f hf
          · simp [load_fact_title_ratings, hta, ih2]
      | some v =>
          obtain ⟨tk, sy, tyk⟩ := v
          refine ⟨?_, ?_⟩
          · intro f hf
            simp only [load_fact_title_ratings, hta] at hf
            rcases List.mem_cons.mp hf with rfl | hf'
            · exact ⟨sy, tyk, by simpa using hta⟩
            · exact ih1 f hf'
          · simp [load_fact_title_ratings, hta, ih2]

theorem load_dim_episode_orphan_count (vt : String → Bool)
    (rs : List EpisodeRow) :
    (load_dim_episode vt rs).2.parent_tconst_not_found =
      (rs.filter (fun x => episodeKept vt x && orphanParent vt x)).length := by
  induction rs with
  | nil => rfl
  | cons a as ih =>
      cases hta : a.tconst with
      | none => simp [load_dim_episode, hta, episodeKept, ih]
      | some t =>
          by_cases hv : vt t
          · cases hpa : a.parentTconst with
            | none =>
                simp [load_dim_episode, hta, hv, episodeKept, orphanParent,
                  hpa, ih]
            | some p =>
                by_cases hcond : p ≠ "" ∧ ¬ vt p
                · simp [load_dim_episode, hta, hv, episodeKept, orphanParent,
                    hpa, hcond, ih, hcond.1, hcond.2]
                · simp only [not_and_or, not_not, ne_eq, not_ne_iff]
                    at hcond
                  rcases hcond with hc | hc
                  · subst hc
                    simp [load_dim_episode, hta, hv, episodeKept,
                      orphanParent, hpa, ih]
                  · simp [load_dim_episode, hta, hv, episodeKept,
                      orphanParent, hpa, ih, hc]
          · simp [load_dim_episode, hta, hv, episodeKept, ih]

theorem load_dim_episode_mem (vt : String → Bool) (rs : List EpisodeRow)
    (r : EpisodeRow) (t : String)
    (hmem : r ∈ rs) (ht : r.tconst = some t) (hvt : vt t = true) :
    (⟨t, episodeParentOut vt r, r.seasonNumber, r.episodeNumber⟩ :
        EpisodeDimRow) ∈ (load_dim_episode vt rs).1 := by
  induction rs with
  | nil => cases hmem
  | cons a as ih =>
      rcases List.mem_cons.mp hmem with h | h
      · subst h
        simp only [load_dim_episode, ht, hvt, if_true]
        cases hpa : r.parentTconst with
        | none => simp [episodeParentOut, hpa]
        | some p =>
            simp only [episodeParentOut, hpa, List.mem_cons]
            left
            split <;> rfl
      · have hm := ih h
        cases hta : a.tconst with
        | none => simpa [load_dim_episode, hta] using hm
        | some t' =>
            by_cases hv : vt t'
            · simp only [load_dim_episode, hta, hv, if_true]
              exact List.mem_cons_of_mem _ hm
            · simpa [load_dim_episode, hta, hv] using hm

/-- C8: an episode record whose own identifier resolves to a loaded title
but whose parent identifier does not is still inserted — with the parent
reference stored as NULL — and the unresolvable parent is counted in the
`parent_tconst_not_found` tally (which equals exactly the number of kept
records with an orphan parent). -/
theorem episode_orphan_parent_kept
    (vt : String → Bool) (rs : List EpisodeRow) (r : EpisodeRow)
    (t p : String)
    (hmem : r ∈ rs) (ht : r.tconst = some t) (hvt : vt t = true)
    (hp : r.parentTconst = some p) (hpe : p ≠ "") (hpv : vt p = false) :
    (⟨t, none, r.seasonNumber, r.episodeNumber⟩ : EpisodeDimRow) ∈
        (load_dim_episode vt rs).1 ∧
    (load_dim_episode vt rs).2.parent_tconst_not_found =
      (rs.filter (fun x => episodeKept vt x && orphanParent vt x)).length ∧
    1 ≤ (load_dim_episode vt rs).2.parent_tconst_not_found := by
  have hout : episodeParentOut vt r = none := by
    simp [episodeParentOut, hp, hpe, hpv]
  refine ⟨?_, load_dim_episode_orphan_count vt rs, ?_⟩
  · have := load_dim_episode_mem vt rs r t hmem ht hvt
    rwa [hout] at this
  · rw [load_dim_episode_orphan_count vt rs]
    have hf : r ∈ rs.filter (fun x => episodeKept vt x && orphanParent vt x) := by
      refine List.mem_filter.mpr ⟨hmem, ?_⟩
      simp [episodeKept, orphanParent, ht, hvt, hp, hpe, hpv]
    have := List.length_pos.mpr (List.ne_nil_of_mem hf)
    omega

/-- Witness for C8: one episode (`tt1`) whose parent (`tt9`) is not a loaded
title is inserted with a NULL parent and counted once. -/
theorem episode_orphan_parent_kept_witness :
    (⟨"tt1", none, some 1, some 2⟩ : EpisodeDimRow) ∈
        (load_dim_episode (fun s => s == "tt1")
          [⟨some "tt1", some "tt9", some 1, some 2⟩]).1 ∧
    (load_dim_episode (fun s => s == "tt1")
        [⟨some "tt1", some "tt9", some 1, some 2⟩]).2.parent_tconst_not_found =
      ([⟨some "tt1", some "tt9", some 1, some 2⟩].filter
        (fun x => episodeKept (fun s => s == "tt1") x &&
          orphanParent (fun s => s == "tt1") x)).length ∧
    1 ≤ (load_dim_episode (fun s => s == "tt1")
        [⟨some "tt1", some "tt9", some 1, some 2⟩]).2.parent_tconst_not_found :=
  episode_orphan_parent_kept (fun s => s == "tt1")
    [⟨some "tt1", some "tt9", some 1, some 2⟩]
    ⟨some "tt1", some "tt9", some 1, some 2⟩ "tt1" "tt9"
    (by decide) rfl (by decide) rfl (by decide) (by decide)

theorem load_dim_title_rows_eq (tm : String → Option Nat)
    (rs : List BasicsRow) :
    (load_dim_title tm rs).1 =
      (rs.filter keepTitle).map
        (fun x => projectTitle tm (x.tconst.getD "") x) := by
  induction rs with
  | nil => rfl
  | cons a as ih =>
      cases hta : a.tconst with
      | none => simp [load_dim_title, hta, keepTitle, ih]
      | some t =>
          by_cases hN : t = "\\N"
          · subst hN
            simp [load_dim_title, hta, keepTitle, ih]
          · simp [load_dim_title, hta, keepTitle, hN, ih]

theorem load_dim_title_unknown_count (tm : String → Option Nat)
    (rs : List BasicsRow) :
    (load_dim_title tm rs).2.unknown_titleType =
      (rs.filter (fun x => keepTitle x && unknownTitleType tm x)).length := by
  induction rs with
  | nil => rfl
  | cons a as ih =>
      cases hta : a.tconst with
      | none => simp [load_dim_title, hta, keepTitle, ih]
      | some t =>
          by_cases hN : t = "\\N"
          · subst hN
            simp [load_dim_title, hta, keepTitle, ih]
          · cases hty : a.titleType with
            | none =>
                simp [load_dim_title, hta, keepTitle, unknownTitleType, hN,
                  hty, ih]
            | some ty =>
                cases htm : tm ty with
                | none =>
                    simp [load_dim_title, hta, keepTitle, unknownTitleType,
                      hN, hty, htm, ih]
                | some k =>
                    simp [load_dim_title, hta, keepTitle, unknownTitleType,
                      hN, hty, htm, ih]

theorem load_dim_title_missing_count (tm : String → Option Nat)
    (rs : List BasicsRow) :
    (load_dim_title tm rs).2.missing_tconst =
      (rs.filter (fun x => ! keepTitle x)).length := by
  induction rs with
  | nil => rfl
  | cons a as ih =>
      cases hta : a.tconst with
      | none => simp [load_dim_title, hta, keepTitle, ih]
      | some t =>
          by_cases hN : t = "\\N"
          · subst hN
            simp [load_dim_title, hta, keepTitle, ih]
          · simp [load_dim_title, hta, keepTitle, hN, ih]

/-- C10: a title record with a usable natural identifier whose content-type
tag has no `type_map` entry is still inserted — with `type_key` NULL — and
counted under `unknown_titleType`; the loaded rows are exactly the
projections of the records with a usable identifier (so only records with a
NaN or `\N` identifier are dropped, counted under `missing_tconst`). -/
theorem title_unmappable_type_inserted
    (tm : String → Option Nat) (rs : List BasicsRow) (r : BasicsRow)
    (t ty : String)
    (hmem : r ∈ rs) (ht : r.tconst = some t) (hsn : t ≠ "\\N")
    (hty : r.titleType = some ty) (hun : tm ty = none) :
    (projectTitle tm t r ∈ (load_dim_title tm rs).1 ∧
      (projectTitle tm t r).type_key = none) ∧
    (load_dim_title tm rs).2.unknown_titleType =
      (rs.filter (fun x => keepTitle x && unknownTitleType tm x)).length ∧
    1 ≤ (load_dim_title tm rs).2.unknown_titleType ∧
    (load_dim_title tm rs).1 =
      (rs.filter keepTitle).map
        (fun x => projectTitle tm (x.tconst.getD "") x) ∧
    (load_dim_title tm rs).2.missing_tconst =
      (rs.filter (fun x => ! keepTitle x)).length := by
  have hkeep : keepTitle r = true := by simp [keepTitle, ht, hsn]
  refine ⟨⟨?_, ?_⟩, load_dim_title_unknown_count tm rs, ?_,
    load_dim_title_rows_eq tm rs, load_dim_title_missing_count tm rs⟩
  · rw [load_dim_title_rows_eq tm rs]
    refine List.mem_map.mpr ⟨r, List.mem_filter.mpr ⟨hmem, hkeep⟩, ?_⟩
    rw [ht]
    rfl
  · simp [projectTitle, titleTypeKey, hty, hun]
  · rw [load_dim_title_unknown_count tm rs]
    have hf : r ∈ rs.filter (fun x => keepTitle x && unknownTitleType tm x) := by
      refine List.mem_filter.mpr ⟨hmem, ?_⟩
      simp [hkeep, unknownTitleType, hty, hun]
    have := List.length_pos.mpr (List.ne_nil_of_mem hf)
    omega

/-- Witness for C10: a record with tag `weirdtype` unknown to the type map
is inserted with a NULL `type_key` and counted. -/
theorem title_unmappable_type_inserted_witness :
    (projectTitle (fun ty => if ty = "movie" then some 1 else none) "tt1"
        ⟨some "tt1", some "weirdtype", none, none, none, none, none, none,
          none⟩ ∈
      (load_dim_title (fun ty => if ty = "movie" then some 1 else none)
        [⟨some "tt1", some "weirdtype", none, none, none, none, none, none,
          none⟩]).1 ∧
      (projectTitle (fun ty => if ty = "movie" then some 1 else none) "tt1"
        ⟨some "tt1", some "weirdtype", none, none, none, none, none, none,
          none⟩).type_key = none) ∧
    (load_dim_title (fun ty => if ty = "movie" then some 1 else none)
        [⟨some "tt1", some "weirdtype", none, none, none, none, none, none,
          none⟩]).2.unknown_titleType =
      ([⟨some "tt1", some "weirdtype", none, none, none, none, none, none,
          none⟩].filter
        (fun x => keepTitle x &&
          unknownTitleType (fun ty => if ty = "movie" then some 1 else none)
            x)).length ∧
    1 ≤ (load_dim_title (fun ty => if ty = "movie" then some 1 else none)
        [⟨some "tt1", some "weirdtype", none, none, none, none, none, none,
          none⟩]).2.unknown_titleType ∧
    (load_dim_title (fun ty => if ty = "movie" then some 1 else none)
        [⟨some "tt1", some "weirdtype", none, none, none, none, none, none,
          none⟩]).1 =
      ([⟨some "tt1", some "weirdtype", none, none, none, none, none, none,
          none⟩].filter keepTitle).map
        (fun x =>
          projectTitle (fun ty => if ty = "movie" then some 1 else none)
            (x.tconst.getD "") x) ∧
    (load_dim_title (fun ty => if ty = "movie" then some 1 else none)
        [⟨some "tt1", some "weirdtype", none, none, none, none, none, none,
          none⟩]).2.missing_tconst =
      ([⟨some "tt1", some "weirdtype", none, none, none, none, none, none,
          none⟩].filter (fun x => ! keepTitle x)).length :=
  title_unmappable_type_inserted
    (fun ty => if ty = "movie" then some 1 else none)
    [⟨some "tt1", some "weirdtype", none, none, none, none, none, none,
      none⟩]
    ⟨some "tt1", some "weirdtype", none, none, none, none, none, none, none⟩
    "tt1" "weirdtype" (by decide) rfl (by decide) rfl (by decide)

/-! Lemmas about the bulk loader. -/

theorem toBatchesAux_flatten {α : Type} (bs : Nat) (hbs : 1 ≤ bs) :
    ∀ (fuel : Nat) (l : List α), l.length ≤ fuel →
      (toBatchesAux bs fuel l).flatten = l := by
  intro fuel
  induction fuel with
  | zero =>
      intro l hl
      match l with
      | [] => rfl
      | a :: as => simp at hl
  | succ n ih =>
      intro l hl
      match l with
      | [] => rfl
      | a :: as =>
          simp only [toBatchesAux, List.flatten_cons]
          rw [ih]
          · exact List.take_append_drop bs (a :: as)
          · have hd : (List.drop bs (a :: as)).length =
                (a :: as).length - bs := List.length_drop _ _
            simp at hl ⊢
            omega

theorem runBatches_fail {α : Type} (batches : List (List α)) :
    ∀ (j d : Nat),
      (runBatches (some (j + d)) j batches).committed =
        (batches.take d).flatten ∧
      (runBatches (some (j + d)) j batches).errored =
        decide (d < batches.length) := by
  induction batches with
  | nil => intro j d; simp [runBatches]
  | cons b bs ih =>
      intro j d
      cases d with
      | zero => simp [runBatches]
      | succ d' =>
          have hne : ¬ (some (j + (d' + 1)) = some j) := by
            intro hc
            injection hc with hc'
            omega
          have hidx : j + (d' + 1) = (j + 1) + d' := by omega
          have hih := ih (j + 1) d'
          rw [hidx]
          simp only [runBatches, if_neg (hidx ▸ hne)]
          refine ⟨?_, ?_⟩
          · rw [hih.1]
            simp
          · rw [hih.2]
            simp only [List.length_cons, decide_eq_decide]
            omega

/-- C9: when the `executemany` of batch `k` raises, the pending transaction
is rolled back — what remains committed for the table is exactly the
batches before `k`, the table is marked errored, and the orchestrated run
still processes every other table (the error does not escape
`bulk_insert`). The batches partition the row sequence. -/
theorem bulk_insert_batch_failure {α : Type} (bs k i : Nat) (data : List α)
    (tables : List (Option Nat × List α))
    (hbs : 1 ≤ bs) (hk : k < (toBatches bs data).length) :
    (bulk_insert (some k) bs data).committed =
      ((toBatches bs data).take k).flatten ∧
    (bulk_insert (some k) bs data).errored = true ∧
    (toBatches bs data).flatten = data ∧
    (runTables bs tables).length = tables.length ∧
    (runTables bs tables)[i]? =
      (tables[i]?).map (fun p => bulk_insert p.1 bs p.2) := by
  have h1 := runBatches_fail (α := α) (toBatches bs data) 0 k
  rw [Nat.zero_add] at h1
  refine ⟨h1.1, ?_, ?_, by simp [runTables], by simp [runTables]⟩
  · show (runBatches (some k) 0 (toBatches bs data)).errored = true
    rw [h1.2]
    simpa using hk
  · exact toBatchesAux_flatten bs hbs data.length data le_rfl

/-- Witness for C9: with batch size 2 over three rows, a failure in batch 1
leaves exactly batch 0 committed, marks the table errored, and the two-table
run still yields an outcome for each table. -/
theorem bulk_insert_batch_failure_witness :
    (bulk_insert (some 1) 2 [10, 20, 30]).committed =
      ((toBatches 2 [10, 20, 30]).take 1).flatten ∧
    (bulk_insert (some 1) 2 [10, 20, 30]).errored = true ∧
    (toBatches 2 [10, 20, 30]).flatten = [10, 20, 30] ∧
    (runTables 2 [(some 0, [1]), (none, [2])]).length =
      [(some 0, [1]), (none, [2])].length ∧
    (runTables 2 [(some 0, [1]), (none, [2])])[1]? =
      ([(some 0, [1]), (none, [2])][1]?).map
        (fun p => bulk_insert p.1 2 p.2) :=
  bulk_insert_batch_failure 2 1 1 [10, 20, 30] [(some 0, [1]), (none, [2])]
    (by decide) (by decide)

/-! Lemmas about the bridge builders. -/

theorem genrePairs_length (gm : String → Option Nat) (t : String)
    (toks : List String) :
    (genrePairs gm t toks).length +
      (toks.filter (fun g => gm g = none)).length = toks.length := by
  induction toks with
  | nil => rfl
  | cons a as ih =>
      cases hga : gm a with
      | none =>
          simp only [genrePairs, List.filterMap_cons, hga, Option.map_none',
            List.filter_cons] at ih ⊢
          simp [hga] at ih ⊢
          omega
      | some k =>
          simp only [genrePairs, List.filterMap_cons, hga, Option.map_some',
            List.filter_cons] at ih ⊢
          simp [hga] at ih ⊢
          omega

theorem load_bridge_title_genre_endpoints (gm : String → Option Nat)
    (vt : String → Bool) (rs : List BasicsRow) :
    ∀ p ∈ (load_bridge_title_genre gm vt rs).1,
      vt p.1 = true ∧ ∃ g, gm g = some p.2 := by
  induction rs with
  | nil => intro p hp; cases hp
  | cons a as ih =>
      intro p hp
      cases hta : a.tconst with
      | none =>
          simp only [load_bridge_title_genre, hta] at hp
          exact ih p hp
      | some t =>
          by_cases hv : vt t = true
          · cases hg : a.genres with
            | none =>
                simp only [load_bridge_title_genre, hta, hv, if_true, hg]
                  at hp
                exact ih p hp
            | some g =>
                by_cases hN : g = "\\N"
                · simp only [load_bridge_title_genre, hta, hv, if_true, hg,
                    hN, if_true] at hp
                  exact ih p hp
                · simp only [load_bridge_title_genre, hta, hv, if_true, hg,
                    if_neg hN] at hp
                  rcases List.mem_append.mp hp with hl | hr
                  · rcases List.mem_filterMap.mp hl with ⟨gname, _, heq⟩
                    rcases Option.map_eq_some'.mp heq with ⟨k, hk, rfl⟩
                    exact ⟨hv, gname, hk⟩
                  · exact ih p hr
          · simp only [load_bridge_title_genre, hta,
              if_neg hv] at hp
            exact ih p hp

theorem load_bridge_title_genre_conservation (gm : String → Option Nat)
    (vt : String → Bool) (rs : List BasicsRow) :
    (load_bridge_title_genre gm vt rs).1.length +
        (load_bridge_title_genre gm vt rs).2.unknown_genre =
      (rs.map (fun r => (genreCandidates vt r).length)).sum := by
  induction rs with
  | nil => rfl
  | cons a as ih =>
      cases hta : a.tconst with
      | none =>
          simp only [load_bridge_title_genre, hta, genreCandidates,
            List.map_cons, List.sum_cons]
          simpa using ih
      | some t =>
          by_cases hv : vt t = true
          · cases hg : a.genres with
            | none =>
                simp only [load_bridge_title_genre, hta, hv, if_true, hg,
                  genreCandidates, List.map_cons, List.sum_cons]
                simpa using ih
            | some g =>
                by_cases hN : g = "\\N"
                · simp only [load_bridge_title_genre, hta, hv, if_true, hg,
                    hN, if_true, genreCandidates, List.map_cons,
                    List.sum_cons]
                  simpa using ih
                · have hcand : genreCandidates vt a = splitGenres g := by
                    simp [genreCandidates, hta, hv, hg, hN]
                  simp only [load_bridge_title_genre, hta, hv, if_true, hg,
                    if_neg hN, List.map_cons, List.sum_cons, hcand,
                    List.length_append]
                  have hc := genrePairs_length gm t (splitGenres g)
                  omega
          · simp only [load_bridge_title_genre, hta, if_neg hv,
              genreCandidates, List.map_cons, List.sum_cons]
            simpa using ih

theorem personPairs_length (pm : String → Option Nat) (t : String)
    (toks : List String) :
    (personPairs pm t toks).length +
      (toks.filter (fun n => ! truthyKey (pm n))).length = toks.length := by
  induction toks with
  | nil => rfl
  | cons a as ih =>
      by_cases htr : truthyKey (pm a) = true
      · cases hpa : pm a with
        | none => rw [hpa] at htr; cases htr
        | some k =>
            rw [hpa] at htr
            simp only [personPairs, List.filterMap_cons, hpa,
              Option.map_some', List.filter_cons]
            simp only [personPairs] at ih
            simp [htr]
            omega
      · have hf : truthyKey (pm a) = false := by
          revert htr
          cases truthyKey (pm a) <;> simp
        simp only [personPairs, List.filterMap_cons, List.filter_cons]
        simp only [personPairs] at ih
        simp [hf]
        omega

theorem personPairs_keys (pm : String → Option Nat) (t : String)
    (toks : List String) :
    ∀ p ∈ personPairs pm t toks, p.1 = t ∧ ∃ n, pm n = some p.2 ∧ p.2 ≠ 0 := by
  intro p hp
  rcases List.mem_filterMap.mp hp with ⟨n, _, heq⟩
  by_cases htr : truthyKey (pm n) = true
  · rw [if_pos htr] at heq
    rcases Option.map_eq_some'.mp heq with ⟨k, hk, rfl⟩
    refine ⟨rfl, n, hk, ?_⟩
    rw [hk] at htr
    simpa [truthyKey] using htr
  · rw [if_neg htr] at heq
    cases heq

theorem mem_personPairs (pm : String → Option Nat) (t : String)
    (toks : List String) (n : String) (k : Nat)
    (hn : n ∈ toks) (hk : pm n = some k) (hk0 : k ≠ 0) :
    (t, k) ∈ personPairs pm t toks := by
  refine List.mem_filterMap.mpr ⟨n, hn, ?_⟩
  have htr : truthyKey (pm n) = true := by simp [hk, truthyKey, hk0]
  rw [if_pos htr, hk]
  rfl

theorem load_bridge_title_director_endpoints (pm : String → Option Nat)
    (vt : String → Bool) (rs : List CrewRow) :
    ∀ p ∈ (load_bridge_title_director pm vt rs).1,
      vt p.1 = true ∧ ∃ n, pm n = some p.2 ∧ p.2 ≠ 0 := by
  induction rs with
  | nil => intro p hp; cases hp
  | cons a as ih =>
      intro p hp
      cases hta : a.tconst with
      | none =>
          simp only [load_bridge_title_director, hta] at hp
          exact ih p hp
      | some t =>
          by_cases hv : vt t = true
          · cases hd : a.directors with
            | none =>
                simp only [load_bridge_title_director, hta, hv, if_true, hd]
                  at hp
                exact ih p hp
            | some ds =>
                by_cases hN : ds = "\\N"
                · simp only [load_bridge_title_director, hta, hv, if_true,
                    hd, hN, if_true] at hp
                  exact ih p hp
                · simp only [load_bridge_title_director, hta, hv, if_true,
                    hd, if_neg hN] at hp
                  rcases List.mem_append.mp hp with hl | hr
                  · rcases personPairs_keys pm t _ p hl with ⟨hp1, hex⟩
                    exact ⟨hp1 ▸ hv, hex⟩
                  · exact ih p hr
          · simp only [load_bridge_title_director, hta, if_neg hv] at hp
            exact ih p hp

theorem load_bridge_title_writer_endpoints (pm : String → Option Nat)
    (vt : String → Bool) (rs : List CrewRow) :
    ∀ p ∈ (load_bridge_title_writer pm vt rs).1,
      vt p.1 = true ∧ ∃ n, pm n = some p.2 ∧ p.2 ≠ 0 := by
  induction rs with
  | nil => intro p hp; cases hp
  | cons a as ih =>
      intro p hp
      cases hta : a.tconst with
      | none =>
          simp only [load_bridge_title_writer, hta] at hp
          exact ih p hp
      | some t =>
          by_cases hv : vt t = true
          · cases hd : a.writers with
            | none =>
                simp only [load_bridge_title_writer, hta, hv, if_true, hd]
                  at hp
                exact ih p hp
            | some ws =>
                by_cases hN : ws = "\\N"
                · simp only [load_bridge_title_writer, hta, hv, if_true,
                    hd, hN, if_true] at hp
                  exact ih p hp
                · simp only [load_bridge_title_writer, hta, hv, if_true,
                    hd, if_neg hN] at hp
                  rcases List.mem_append.mp hp with hl | hr
                  · rcases personPairs_keys pm t _ p hl with ⟨hp1, hex⟩
                    exact ⟨hp1 ▸ hv, hex⟩
                  · exact ih p hr
          · simp only [load_bridge_title_writer, hta, if_neg hv] at hp
            exact ih p hp

theorem load_bridge_title_principal_endpoints (pm : String → Option Nat)
    (vt : String → Bool) (rs : List PrincipalRow) :
    ∀ q ∈ (load_bridge_title_principal pm vt rs).1,
      vt q.tconst = true ∧
        ∃ n, pm n = some q.person_key ∧ q.person_key ≠ 0 := by
  induction rs with
  | nil => intro q hq; cases hq
  | cons a as ih =>
      intro q hq
      cases hta : a.tconst with
      | none =>
          simp only [load_bridge_title_principal, hta] at hq
          exact ih q hq
      | some t =>
          by_cases hv : vt t = true
          · cases han : a.nconst with
            | none =>
                simp only [load_bridge_title_principal, hta, hv, if_true,
                  han, truthyKey] at hq
                exact ih q hq
            | some n =>
                cases hpn : pm n with
                | none =>
                    simp only [load_bridge_title_principal, hta, hv,
                      if_true, han, hpn, truthyKey] at hq
                    exact ih q hq
                | some k =>
                    by_cases hk : k = 0
                    · subst hk
                      simp only [load_bridge_title_principal, hta, hv,
                        if_true, han, hpn, truthyKey] at hq
                      simp at hq
                      exact ih q hq
                    · have htr : truthyKey (some k) = true := by
                        simp [truthyKey, hk]
                      simp only [load_bridge_title_principal, hta, hv,
                        if_true, han, hpn, htr, if_true] at hq
                      rcases List.mem_cons.mp hq with rfl | hq'
                      · exact ⟨hv, n, by simpa using hpn, by simpa using hk⟩
                      · exact ih q hq'
          · simp only [load_bridge_title_principal, hta, if_neg hv] at hq
            exact ih q hq

theorem load_bridge_title_director_conservation (pm : String → Option Nat)
    (vt : String → Bool) (rs : List CrewRow) :
    (load_bridge_title_director pm vt rs).1.length +
        (load_bridge_title_director pm vt rs).2.unknown_person =
      (rs.map (fun r => (directorCandidates vt r).length)).sum := by
  induction rs with
  | nil => rfl
  | cons a as ih =>
      cases hta : a.tconst with
      | none =>
          simp only [load_bridge_title_director, hta, directorCandidates,
            List.map_cons, List.sum_cons]
          simpa using ih
      | some t =>
          by_cases hv : vt t = true
          · cases hd : a.directors with
            | none =>
                simp only [load_bridge_title_director, hta, hv, if_true,
                  hd, directorCandidates, List.map_cons, List.sum_cons]
                simpa using ih
            | some ds =>
                by_cases hN : ds = "\\N"
                · simp only [load_bridge_title_director, hta, hv, if_true,
                    hd, hN, if_true, directorCandidates, List.map_cons,
                    List.sum_cons]
                  simpa using ih
                · have hcand : directorCandidates vt a =
                      (splitOnComma ds).map stripStr := by
                    simp [directorCandidates, hta, hv, hd, hN]
                  simp only [load_bridge_title_director, hta, hv, if_true,
                    hd, if_neg hN, List.map_cons, List.sum_cons, hcand,
                    List.length_append]
                  have hc := personPairs_length pm t
                    ((splitOnComma ds).map stripStr)
                  omega
          · simp only [load_bridge_title_director, hta, if_neg hv,
              directorCandidates, List.map_cons, List.sum_cons]
            simpa using ih

theorem load_bridge_title_director_mem (pm : String → Option Nat)
    (vt : String → Bool) (crew : List CrewRow) (c : CrewRow)
    (t ds : String)
    (hc : c ∈ crew) (hct : c.tconst = some t) (hvt : vt t = true)
    (hcd : c.directors = some ds) (hdsN : ds ≠ "\\N") :
    ∀ p ∈ personPairs pm t ((splitOnComma ds).map stripStr),
      p ∈ (load_bridge_title_director pm vt crew).1 := by
  induction crew with
  | nil => cases hc
  | cons a as ih =>
      intro p hp
      rcases List.mem_cons.mp hc with h | h
      · subst h
        simp only [load_bridge_title_director, hct, hvt, if_true, hcd,
          if_neg hdsN]
        exact List.mem_append.mpr (Or.inl hp)
      · have hm := ih h p hp
        cases hta : a.tconst with
        | none => simpa [load_bridge_title_director, hta] using hm
        | some t' =>
            by_cases hv : vt t' = true
            · cases hd : a.directors with
              | none =>
                  simpa [load_bridge_title_director, hta, hv, hd] using hm
              | some ds' =>
                  by_cases hN : ds' = "\\N"
                  · simpa [load_bridge_title_director, hta, hv, hd, hN]
                      using hm
                  · simp only [load_bridge_title_director, hta, hv, if_true,
                      hd, if_neg hN]
                    exact List.mem_append.mpr (Or.inr hm)
            · simpa [load_bridge_title_director, hta, hv] using hm

theorem load_bridge_title_principal_mem (pm : String → Option Nat)
    (vt : String → Bool) (prins : List PrincipalRow) (q : PrincipalRow)
    (t n : String) (k : Nat)
    (hq : q ∈ prins) (hqt : q.tconst = some t) (hvt : vt t = true)
    (hqn : q.nconst = some n) (hk : pm n = some k) (hk0 : k ≠ 0) :
    (⟨t, k, q.category.map (takeStr 100), q.job.map (takeStr 255),
        q.characters⟩ : PrincipalBridgeRow) ∈
      (load_bridge_title_principal pm vt prins).1 := by
  induction prins with
  | nil => cases hq
  | cons a as ih =>
      rcases List.mem_cons.mp hq with h | h
      · subst h
        have htr : truthyKey (pm n) = true := by simp [hk, truthyKey, hk0]
        simp only [load_bridge_title_principal, hqt, hvt, if_true, hqn,
          htr, if_true]
        rw [hk]
        exact List.mem_cons_self _ _
      · have hm := ih h
        cases hta : a.tconst with
        | none => simpa [load_bridge_title_principal, hta] using hm
        | some t' =>
            by_cases hv : vt t' = true
            · by_cases htr : truthyKey (match a.nconst with
                | some n' => pm n'
                | none => none) = true
              · simp only [load_bridge_title_principal, hta, hv, if_true,
                  htr, if_true]
                exact List.mem_cons_of_mem _ hm
              · simp only [load_bridge_title_principal, hta, hv, if_true,
                  if_neg htr]
                exact hm
            · simpa [load_bridge_title_principal, hta, hv] using hm

/-! Key-map lemmas: a key handed out by a fetched-back dictionary always
designates a persisted dimension row. -/

theorem firstIdx_spec {α : Type} (p : α → Bool) :
    ∀ (l : List α) (i : Nat), firstIdx p l = some i →
      ∃ h : i < l.length, p (l.get ⟨i, h⟩) = true := by
  intro l
  induction l with
  | nil => intro i h; cases h
  | cons a as ih =>
      intro i h
      by_cases hpa : p a = true
      · simp only [firstIdx, hpa, if_true] at h
        cases h
        exact ⟨by simp, by simpa using hpa⟩
      · simp only [firstIdx, hpa, if_false, Bool.false_eq_true] at h
        rcases Option.map_eq_some'.mp h with ⟨j, hj, hji⟩
        rcases ih j hj with ⟨hlt, hget⟩
        subst hji
        exact ⟨by simpa using Nat.succ_lt_succ hlt, by simpa using hget⟩

theorem personKeyMap_mem (persons : List PersonDimRow) (n : String) (k : Nat)
    (h : personKeyMap persons n = some k) :
    ∃ q ∈ persons, personKeyMap persons q.nconst = some k := by
  rcases Option.map_eq_some'.mp h with ⟨i, hi, hik⟩
  rcases firstIdx_spec _ persons i hi with ⟨hlt, hp⟩
  refine ⟨persons.get ⟨i, hlt⟩, List.get_mem _ _ _, ?_⟩
  have hn : (persons.get ⟨i, hlt⟩).nconst = n := by simpa using hp
  show (firstIdx (fun q => q.nconst == (persons.get ⟨i, hlt⟩).nconst)
      persons).map (· + 1) = some k
  rw [hn, hi]
  simpa using hik

/-- C6 (amended): every emitted bridge row's endpoints are validated
against the fetched-back dimension key sets — its title is in
`valid_tconsts` and its key was handed out by the fetched `genre_map` /
`person_map` — and invalid candidates are skipped and counted: emitted rows
plus unknown-candidate counts add up to the total number of exploded
candidates.  (One row is emitted per valid candidate token *occurrence*: a
duplicated token in the delimited field yields duplicate rows, see the
counterexample.) -/
theorem bridge_endpoints_validated (gm pm : String → Option Nat)
    (vt : String → Bool) (rs : List BasicsRow) (crew : List CrewRow) :
    (∀ p ∈ (load_bridge_title_genre gm vt rs).1,
        vt p.1 = true ∧ ∃ g, gm g = some p.2) ∧
    (∀ p ∈ (load_bridge_title_director pm vt crew).1,
        vt p.1 = true ∧ ∃ n, pm n = some p.2 ∧ p.2 ≠ 0) ∧
    (load_bridge_title_genre gm vt rs).1.length +
        (load_bridge_title_genre gm vt rs).2.unknown_genre =
      (rs.map (fun r => (genreCandidates vt r).length)).sum ∧
    (load_bridge_title_director pm vt crew).1.length +
        (load_bridge_title_director pm vt crew).2.unknown_person =
      (crew.map (fun r => (directorCandidates vt r).length)).sum :=
  ⟨load_bridge_title_genre_endpoints gm vt rs,
   load_bridge_title_director_endpoints pm vt crew,
   load_bridge_title_genre_conservation gm vt rs,
   load_bridge_title_director_conservation pm vt crew⟩

/-- C6 counterexample: with `genres = "Drama,Drama"` the only valid
(title, genre) pair is (tt1, Drama), yet the bridge builder emits two
association rows for it — refuting "exactly one association row is emitted
per valid pair". -/
theorem genre_bridge_duplicate_pair_cex :
    load_dim_genre dupGenreRows = ["Drama"] ∧
    (load_bridge_title_genre (genreKeyMap (load_dim_genre dupGenreRows))
        (fun t => t == "tt1") dupGenreRows).1 = [("tt1", 1), ("tt1", 1)] ∧
    ¬ ((load_bridge_title_genre (genreKeyMap (load_dim_genre dupGenreRows))
        (fun t => t == "tt1") dupGenreRows).1.count ("tt1", 1) = 1) := by
  refine ⟨by decide, by decide, by decide⟩

/-- C1 counterexample: `nm2` is referenced by the crew source as a director
and is absent from the primary roster, yet after the run the Person
dimension holds only the roster projection — no placeholder row (no row at
all) for `nm2` is synthesized; instead the bridge row is dropped and
counted under `unknown_person`. -/
theorem person_placeholder_cex :
    load_dim_person soloRoster =
      [⟨"nm1", some "Alice", none, none, none, none⟩] ∧
    (∀ q ∈ load_dim_person soloRoster, q.nconst ≠ "nm2") ∧
    (load_bridge_title_director (personKeyMap (load_dim_person soloRoster))
        (fun t => t == "tt1") unknownDirectorCrew).1 = [] ∧
    (load_bridge_title_director (personKeyMap (load_dim_person soloRoster))
        (fun t => t == "tt1") unknownDirectorCrew).2.unknown_person = 1 := by
  refine ⟨by decide, by decide, by decide, by decide⟩

/-- C1 (amended): no placeholder Person rows are synthesized — the Person
dimension is exactly the roster's projection (same length, identifiers all
from the roster) — and integrity is obtained by dropping instead: every
emitted director/writer/principal bridge row's person key was handed out
by `person_map` for some persisted Person row, and the dropped director
candidates are counted (emitted + unknown = total candidates). -/
theorem bridge_person_rows_exist (names : List NameRow)
    (vt : String → Bool) (crew : List CrewRow)
    (prins : List PrincipalRow) :
    (∀ p ∈ (load_bridge_title_director
        (personKeyMap (load_dim_person names)) vt crew).1,
      ∃ q ∈ load_dim_person names,
        personKeyMap (load_dim_person names) q.nconst = some p.2) ∧
    (∀ p ∈ (load_bridge_title_writer
        (personKeyMap (load_dim_person names)) vt crew).1,
      ∃ q ∈ load_dim_person names,
        personKeyMap (load_dim_person names) q.nconst = some p.2) ∧
    (∀ w ∈ (load_bridge_title_principal
        (personKeyMap (load_dim_person names)) vt prins).1,
      ∃ q ∈ load_dim_person names,
        personKeyMap (load_dim_person names) q.nconst = some w.person_key) ∧
    (∀ q ∈ load_dim_person names, ∃ nr ∈ names, q.nconst = nr.nconst) ∧
    (load_dim_person names).length = names.length ∧
    (load_bridge_title_director (personKeyMap (load_dim_person names)) vt
        crew).1.length +
      (load_bridge_title_director (personKeyMap (load_dim_person names)) vt
        crew).2.unknown_person =
      (crew.map (fun r => (directorCandidates vt r).length)).sum := by
  refine ⟨?_, ?_, ?_, ?_, by simp [load_dim_person],
    load_bridge_title_director_conservation _ vt crew⟩
  · intro p hp
    rcases load_bridge_title_director_endpoints _ vt crew p hp
      with ⟨_, n, hk, _⟩
    exact personKeyMap_mem _ n _ hk
  · intro p hp
    rcases load_bridge_title_writer_endpoints _ vt crew p hp
      with ⟨_, n, hk, _⟩
    exact personKeyMap_mem _ n _ hk
  · intro w hw
    rcases load_bridge_title_principal_endpoints _ vt prins w hw
      with ⟨_, n, hk, _⟩
    exact personKeyMap_mem _ n _ hk
  · intro q hq
    rcases List.mem_map.mp hq with ⟨nr, hnr, rfl⟩
    exact ⟨nr, hnr, rfl⟩

/-- C2 counterexample: the crew source and the principal-cast source emit
the same (tt1, nm1, director) association, yet after both loads *two*
association rows survive — one in `bridge_title_director`, one in
`bridge_title_principal` — because the sources feed distinct tables; the
later-loaded principal row does not overwrite (or deduplicate against) the
crew-derived row, refuting "exactly one row survives, last-writer-wins". -/
theorem title_person_two_rows_cex :
    (load_bridge_title_director (personKeyMap (load_dim_person soloRoster))
        (fun t => t == "tt1") dualSourceCrew).1 = [("tt1", 1)] ∧
    (load_bridge_title_principal (personKeyMap (load_dim_person soloRoster))
        (fun t => t == "tt1") dualSourcePrincipals).1 =
      [⟨"tt1", 1, some "director", none, none⟩] ∧
    (load_bridge_title_director (personKeyMap (load_dim_person soloRoster))
        (fun t => t == "tt1") dualSourceCrew).1.length +
      (load_bridge_title_principal
        (personKeyMap (load_dim_person soloRoster))
        (fun t => t == "tt1") dualSourcePrincipals).1.length = 2 := by
  refine ⟨by decide, by decide, by decide⟩

/-- C2 (amended): crew-derived and principal-cast-derived associations land
in separate tables.  When the same (title, person) is emitted by a crew
record (as a director token) and by a principal record, the load keeps one
row in the director bridge *and* one row in the principal bridge — each
carrying its own source's attributes; neither source overwrites the
other. -/
theorem crew_and_principal_separate_tables
    (pm : String → Option Nat) (vt : String → Bool)
    (crew : List CrewRow) (prins : List PrincipalRow)
    (c : CrewRow) (q : PrincipalRow) (t n ds : String) (k : Nat)
    (hc : c ∈ crew) (hq : q ∈ prins)
    (hct : c.tconst = some t) (hqt : q.tconst = some t)
    (hcd : c.directors = some ds) (hdsN : ds ≠ "\\N")
    (htoks : n ∈ (splitOnComma ds).map stripStr)
    (hqn : q.nconst = some n)
    (hvt : vt t = true) (hk : pm n = some k) (hk0 : k ≠ 0) :
    (t, k) ∈ (load_bridge_title_director pm vt crew).1 ∧
    (⟨t, k, q.category.map (takeStr 100), q.job.map (takeStr 255),
        q.characters⟩ : PrincipalBridgeRow) ∈
      (load_bridge_title_principal pm vt prins).1 := by
  refine ⟨?_, load_bridge_title_principal_mem pm vt prins q t n k hq hqt
    hvt hqn hk hk0⟩
  exact load_bridge_title_director_mem pm vt crew c t ds hc hct hvt hcd
    hdsN _ (mem_personPairs pm t _ n k htoks hk hk0)

/-- Witness for the amended C2 on the concrete dual-source records. -/
theorem crew_and_principal_separate_tables_witness :
    ("tt1", 1) ∈ (load_bridge_title_director
        (personKeyMap (load_dim_person soloRoster))
        (fun t => t == "tt1") dualSourceCrew).1 ∧
    (⟨"tt1", 1, Option.map (takeStr 100) (some "director"),
        Option.map (takeStr 255) none, none⟩ : PrincipalBridgeRow) ∈
      (load_bridge_title_principal
        (personKeyMap (load_dim_person soloRoster))
        (fun t => t == "tt1") dualSourcePrincipals).1 :=
  crew_and_principal_separate_tables
    (personKeyMap (load_dim_person soloRoster)) (fun t => t == "tt1")
    dualSourceCrew dualSourcePrincipals
    ⟨some "tt1", some "nm1", none⟩
    ⟨some "tt1", some "nm1", some "director", none, none⟩
    "tt1" "nm1" "nm1" 1
    (by decide) (by decide) rfl rfl rfl (by decide) (by decide) rfl
    (by decide) (by decide) (by decide)

end IMDbETL
